import Mathlib

/-!
Verification of the wallet/network store and the database layer of the
symbol-desktop-wallet repository.

The definitions below are shallow embeddings of the TypeScript sources:

* `src/store/Wallet.ts` — the wallet synchronization store: the
  `transactionGroupToStateVariable` helper, the `ADD_TRANSACTION` /
  `REMOVE_TRANSACTION` actions (transaction dedup index and group
  collections), the `SUBSCRIBE` / `UNSUBSCRIBE` websocket actions, the
  `SET_CURRENT_WALLET` / `initialize` wiring, and the `REST_FETCH_*`
  error-handling skeletons.
* `src/core/database/BaseStorageAdapter.ts` — `read` / `write`.
* `src/core/database/DatabaseModel.ts` — `getIdentifier`.
* the network store (`src/store/Network.ts`) — the `networkType` mutation.

JavaScript arrays are embedded as Lean lists; holes produced by the
JavaScript `delete` operator are represented by `Option` elements
(`none` = hole).  Where the original code relies on a JavaScript coercion
(`delete arr[key]` with a non-index key, `j < n` with an array as `n`),
the embedding has a dedicated definition spelling out that coercion.

The getters of the wallet store sort the group collections in place by
(block height, in-block index) before returning them.  Sorting permutes a
collection but leaves its set of transaction hashes unchanged; none of the
verified properties depend on the ordering, so the embedding omits the
height/index fields and treats the getter as returning the stored list.
-/

deriving instance DecidableEq for Except

namespace SymbolWallet

/-- ASCII lowercasing of one character, as performed by JavaScript's
`String.prototype.toLowerCase` on the ASCII strings this store works
with. -/
def jsCharToLower (c : Char) : Char :=
  if 'A' ≤ c ∧ c ≤ 'Z' then Char.ofNat (c.toNat + 32) else c

/-- JavaScript `group.toLowerCase()` on the (ASCII) group names. -/
def jsToLower (s : String) : String := ⟨s.data.map jsCharToLower⟩

/-- Hash-carrying record attached to a transaction.  The store reads
`transaction.transactionInfo.hash` in `ADD_TRANSACTION` and
`transaction.meta.hash` in `REMOVE_TRANSACTION`; only the hash field is
relevant to the store's logic. -/
structure TransactionInfo where
  hash : String
deriving DecidableEq, Repr

/-- A transaction as seen by the wallet store: it carries both a
`transactionInfo` record and a `meta` record (the two actions read the
hash from different fields). -/
structure Tx where
  transactionInfo : TransactionInfo
  meta : TransactionInfo
deriving DecidableEq, Repr

/-- The transaction-related portion of the wallet store state
(`src/store/Wallet.ts`, `state`): the flat dedup index
`transactionHashes` and the three group collections.  The hash index is a
JavaScript array whose elements can become holes via `delete`, hence
`Option String`. -/
structure WalletState where
  transactionHashes : List (Option String)
  confirmedTransactions : List Tx
  unconfirmedTransactions : List Tx
  partialTransactions : List Tx
deriving DecidableEq, Repr

/-- The initial store state: all collections empty. -/
def initialWalletState : WalletState :=
  { transactionHashes := []
    confirmedTransactions := []
    unconfirmedTransactions := []
    partialTransactions := [] }

/-- Errors thrown by the wallet store actions. -/
inductive StoreError where
  /-- "Missing mandatory field 'group' for action wallet/addTransaction." -/
  | missingGroup : StoreError
  /-- "Unknown transaction group '...'." (thrown by
  `transactionGroupToStateVariable`). -/
  | unknownGroup : String → StoreError
deriving DecidableEq, Repr

/-- The three recognized transaction groups. -/
def validGroups : List String := ["unconfirmed", "confirmed", "partial"]

/-- `transactionGroupToStateVariable` (Wallet.ts lines 49-63): lowercase
the group, return the state-variable name for a recognized group, throw
otherwise. -/
def transactionGroupToStateVariable (group : String) :
    Except StoreError String :=
  let transactionGroup := jsToLower group
  if transactionGroup = "unconfirmed" ∨ transactionGroup = "confirmed"
      ∨ transactionGroup = "partial" then
    .ok (transactionGroup ++ "Transactions")
  else
    .error (.unknownGroup group)

/-- Dynamic read of a group collection by its state-variable name
(`getters[transactionGroup]`). -/
def getGroupCollection (s : WalletState) (v : String) : List Tx :=
  if v = "confirmedTransactions" then s.confirmedTransactions
  else if v = "unconfirmedTransactions" then s.unconfirmedTransactions
  else s.partialTransactions

/-- Dynamic write of a group collection by its state-variable name
(`commit(transactionGroup, transactions)`). -/
def setGroupCollection (s : WalletState) (v : String) (txs : List Tx) :
    WalletState :=
  if v = "confirmedTransactions" then { s with confirmedTransactions := txs }
  else if v = "unconfirmedTransactions" then
    { s with unconfirmedTransactions := txs }
  else { s with partialTransactions := txs }

/-- `ADD_TRANSACTION`'s update of the target group collection (Wallet.ts
lines 455-459): append the transaction iff no transaction with the same
`transactionInfo.hash` is already in this group's collection. -/
def pushIfNewTx (transactions : List Tx) (transaction : Tx) : List Tx :=
  if transactions.find?
      (fun t => t.transactionInfo.hash = transaction.transactionInfo.hash)
      = none then
    transactions ++ [transaction]
  else transactions

/-- `ADD_TRANSACTION`'s update of the hash index (Wallet.ts lines
450-452 and 461-463): append the hash iff it is not yet indexed. -/
def pushIfNewHash (hashes : List (Option String)) (h : String) :
    List (Option String) :=
  if hashes.find? (fun hash => hash = some h) = none then
    hashes ++ [some h]
  else hashes

/-- Body of `ADD_TRANSACTION` after group validation (Wallet.ts lines
449-468): dedup against the hash index and against the target group's own
collection, append where absent, commit both. -/
def addTransactionCore (s : WalletState) (transactionGroup : String)
    (transaction : Tx) : WalletState :=
  setGroupCollection
    { s with transactionHashes :=
        pushIfNewHash s.transactionHashes transaction.transactionInfo.hash }
    transactionGroup
    (pushIfNewTx (getGroupCollection s transactionGroup) transaction)

/-- `ADD_TRANSACTION` (Wallet.ts lines 437-469).  A missing/empty `group`
field throws the missing-field error; `transactionGroupToStateVariable`
throws on an unrecognized group; otherwise the core update runs. -/
def ADD_TRANSACTION (s : WalletState) (group : String) (transaction : Tx) :
    Except StoreError WalletState :=
  if group = "" then .error .missingGroup
  else do
    let transactionGroup ← transactionGroupToStateVariable group
    pure (addTransactionCore s transactionGroup transaction)

/-- JavaScript `delete arr[key]` on an array with a string `key`, starting
from element index `i`: when `key` is the decimal representation of an
index inside the array, the element at that index becomes a hole
(`none`); any other key names no element and the elements are
untouched. -/
def jsArrayDeleteFrom (i : Nat) (key : String) :
    List (Option String) → List (Option String)
  | [] => []
  | h :: t =>
    (if toString i = key then none else h) :: jsArrayDeleteFrom (i + 1) key t

/-- JavaScript `delete arr[key]` with a string key (see
`jsArrayDeleteFrom`). -/
def jsArrayDeleteKey (l : List (Option String)) (key : String) :
    List (Option String) :=
  jsArrayDeleteFrom 0 key l

/-- JavaScript `delete arr[obj]` where `obj` is an object (here: the
transaction found by `Array.prototype.find`): the key stringifies to
"[object Object]", which is never an array index, so no element of the
array is removed. -/
def jsArrayDeleteObjectKey (l : List Tx) : List Tx := l

/-- Body of `REMOVE_TRANSACTION` after group validation (Wallet.ts lines
478-497): look the transaction up by `meta.hash` in the group collection
and in the hash index; return early when absent from the group;
otherwise perform `delete transactions[findIterator]` (object key — no
element removed) and `delete hashes[findHashIt]` (the found hash string
used as a property key) and commit both. -/
def removeTransactionCore (s : WalletState) (transactionGroup : String)
    (transaction : Tx) : WalletState :=
  if (getGroupCollection s transactionGroup).find?
      (fun tx => tx.meta.hash = transaction.meta.hash) = none then s
  else
    setGroupCollection
      { s with transactionHashes :=
          (match s.transactionHashes.find?
              (fun hash => hash = some transaction.meta.hash) with
          | none => jsArrayDeleteKey s.transactionHashes "undefined"
          | some _ =>
            jsArrayDeleteKey s.transactionHashes transaction.meta.hash) }
      transactionGroup
      (jsArrayDeleteObjectKey (getGroupCollection s transactionGroup))

/-- `REMOVE_TRANSACTION` (Wallet.ts lines 470-498). -/
def REMOVE_TRANSACTION (s : WalletState) (group : String) (transaction : Tx) :
    Except StoreError WalletState :=
  if group = "" then .error .missingGroup
  else do
    let transactionGroup ← transactionGroupToStateVariable group
    pure (removeTransactionCore s transactionGroup transaction)

/-- A call to one of the two transaction actions. -/
inductive WalletOp where
  | addTx : String → Tx → WalletOp
  | removeTx : String → Tx → WalletOp
deriving DecidableEq, Repr

/-- Apply one action call; a thrown error leaves the state unchanged
(both actions throw before committing anything). -/
def applyWalletOp (s : WalletState) : WalletOp → WalletState
  | .addTx g t =>
    match ADD_TRANSACTION s g t with
    | .ok s' => s'
    | .error _ => s
  | .removeTx g t =>
    match REMOVE_TRANSACTION s g t with
    | .ok s' => s'
    | .error _ => s

/-- Run a sequence of action calls from the initial state. -/
def runWalletOps (ops : List WalletOp) : WalletState :=
  ops.foldl applyWalletOp initialWalletState

/-- The hashes actually stored in the index (holes skipped). -/
def storedHashes (s : WalletState) : List String :=
  s.transactionHashes.filterMap id

/-- The `transactionInfo.hash` values of a group collection. -/
def groupHashes (l : List Tx) : List String :=
  l.map (fun t => t.transactionInfo.hash)

/-- All hashes present in any of the three group collections. -/
def allGroupHashes (s : WalletState) : List String :=
  groupHashes s.confirmedTransactions ++ groupHashes s.unconfirmedTransactions
    ++ groupHashes s.partialTransactions

/-- Number of the three group collections containing a transaction with
hash `h`. -/
def groupsContaining (s : WalletState) (h : String) : Nat :=
  (if h ∈ groupHashes s.confirmedTransactions then 1 else 0)
  + (if h ∈ groupHashes s.unconfirmedTransactions then 1 else 0)
  + (if h ∈ groupHashes s.partialTransactions then 1 else 0)

/-- The invariant the store actually maintains: no duplicate hash in the
index, no duplicate hash inside any single group collection, and every
indexed hash is carried by a transaction of at least one group. -/
def WalletInv (s : WalletState) : Prop :=
  (storedHashes s).Nodup
  ∧ (groupHashes s.confirmedTransactions).Nodup
  ∧ (groupHashes s.unconfirmedTransactions).Nodup
  ∧ (groupHashes s.partialTransactions).Nodup
  ∧ ∀ h ∈ storedHashes s, h ∈ allGroupHashes s

/-! ### Lemmas about the list updates -/

theorem mem_filterMap_id {l : List (Option String)} {x : String} :
    x ∈ l.filterMap id ↔ some x ∈ l := by
  simp [List.mem_filterMap]

theorem pushIfNewHash_filterMap_nodup {hashes : List (Option String)}
    {h : String} (hn : (hashes.filterMap id).Nodup) :
    ((pushIfNewHash hashes h).filterMap id).Nodup := by
  unfold pushIfNewHash
  split
  · next hfind =>
    rw [List.find?_eq_none] at hfind
    have hnotmem : h ∉ hashes.filterMap id := by
      rw [mem_filterMap_id]
      intro hmem
      simpa using hfind _ hmem
    simp [List.filterMap_append, List.nodup_append, hn, hnotmem]
  · exact hn

theorem mem_pushIfNewHash {hashes : List (Option String)} {h x : String}
    (hx : some x ∈ pushIfNewHash hashes h) : some x ∈ hashes ∨ x = h := by
  unfold pushIfNewHash at hx
  split at hx
  · rcases List.mem_append.1 hx with h1 | h2
    · exact .inl h1
    · simp only [List.mem_singleton, Option.some.injEq] at h2
      exact .inr h2
  · exact .inl hx

theorem groupHashes_append (l : List Tx) (t : Tx) :
    groupHashes (l ++ [t]) = groupHashes l ++ [t.transactionInfo.hash] := by
  simp [groupHashes]

theorem groupHashes_pushIfNewTx_nodup {txs : List Tx} {t : Tx}
    (hn : (groupHashes txs).Nodup) :
    (groupHashes (pushIfNewTx txs t)).Nodup := by
  unfold pushIfNewTx
  split
  · next hfind =>
    rw [List.find?_eq_none] at hfind
    have hnotmem : t.transactionInfo.hash ∉ groupHashes txs := by
      unfold groupHashes
      rw [List.mem_map]
      rintro ⟨u, hu, hh⟩
      simpa [hh] using hfind u hu
    rw [groupHashes_append]
    simp [List.nodup_append, hn, hnotmem]
  · exact hn

theorem self_mem_groupHashes_pushIfNewTx (txs : List Tx) (t : Tx) :
    t.transactionInfo.hash ∈ groupHashes (pushIfNewTx txs t) := by
  unfold pushIfNewTx
  split
  · rw [groupHashes_append]
    simp
  · next hfind =>
    cases hu : txs.find?
        (fun u => u.transactionInfo.hash = t.transactionInfo.hash) with
    | none => exact absurd hu hfind
    | some u =>
      have hmem := List.mem_of_find?_eq_some hu
      have hpred := List.find?_some hu
      simp only [decide_eq_true_eq] at hpred
      exact List.mem_map.2 ⟨u, hmem, hpred⟩

theorem groupHashes_subset_pushIfNewTx (txs : List Tx) (t : Tx) :
    groupHashes txs ⊆ groupHashes (pushIfNewTx txs t) := by
  unfold pushIfNewTx
  split
  · rw [groupHashes_append]
    exact List.subset_append_left _ _
  · exact fun _ h => h

theorem filterMap_jsArrayDeleteFrom_sublist (k : String) :
    ∀ (l : List (Option String)) (i : Nat),
      ((jsArrayDeleteFrom i k l).filterMap id).Sublist (l.filterMap id)
  | [], _ => by simp [jsArrayDeleteFrom]
  | h :: t, i => by
    have ih := filterMap_jsArrayDeleteFrom_sublist k t (i + 1)
    cases h with
    | none =>
      simpa [jsArrayDeleteFrom, ite_self, List.filterMap_cons] using ih
    | some a =>
      simp only [jsArrayDeleteFrom]
      split
      · simpa [List.filterMap_cons] using
          ih.trans (List.sublist_cons_self a (t.filterMap id))
      · simpa [List.filterMap_cons] using ih.cons₂ a

theorem filterMap_jsArrayDeleteKey_sublist (l : List (Option String))
    (k : String) :
    ((jsArrayDeleteKey l k).filterMap id).Sublist (l.filterMap id) :=
  filterMap_jsArrayDeleteFrom_sublist k l 0

/-! ### The invariant is preserved by every action call -/

theorem addTransactionCore_inv (s : WalletState) (v : String) (t : Tx)
    (hinv : WalletInv s) : WalletInv (addTransactionCore s v t) := by
  obtain ⟨h1, h2, h3, h4, h5⟩ := hinv
  have hmem5 : ∀ x ∈ storedHashes s, x ∈ allGroupHashes s := h5
  unfold addTransactionCore setGroupCollection getGroupCollection
  split
  · -- confirmed bucket
    refine ⟨pushIfNewHash_filterMap_nodup h1,
      groupHashes_pushIfNewTx_nodup h2, h3, h4, ?_⟩
    intro x hx
    rcases mem_pushIfNewHash (mem_filterMap_id.1 hx) with hold | hnew
    · have := hmem5 x (mem_filterMap_id.2 hold)
      unfold allGroupHashes at this ⊢
      rcases List.mem_append.1 this with hl | hr
      · rcases List.mem_append.1 hl with hc | hu
        · exact List.mem_append.2 (.inl (List.mem_append.2
            (.inl (groupHashes_subset_pushIfNewTx _ _ hc))))
        · exact List.mem_append.2 (.inl (List.mem_append.2 (.inr hu)))
      · exact List.mem_append.2 (.inr hr)
    · subst hnew
      unfold allGroupHashes
      exact List.mem_append.2 (.inl (List.mem_append.2
        (.inl (self_mem_groupHashes_pushIfNewTx _ _))))
  · split
    · -- unconfirmed bucket
      refine ⟨pushIfNewHash_filterMap_nodup h1, h2,
        groupHashes_pushIfNewTx_nodup h3, h4, ?_⟩
      intro x hx
      rcases mem_pushIfNewHash (mem_filterMap_id.1 hx) with hold | hnew
      · have := hmem5 x (mem_filterMap_id.2 hold)
        unfold allGroupHashes at this ⊢
        rcases List.mem_append.1 this with hl | hr
        · rcases List.mem_append.1 hl with hc | hu
          · exact List.mem_append.2 (.inl (List.mem_append.2 (.inl hc)))
          · exact List.mem_append.2 (.inl (List.mem_append.2
              (.inr (groupHashes_subset_pushIfNewTx _ _ hu))))
        · exact List.mem_append.2 (.inr hr)
      · subst hnew
        unfold allGroupHashes
        exact List.mem_append.2 (.inl (List.mem_append.2
          (.inr (self_mem_groupHashes_pushIfNewTx _ _))))
    · -- partial bucket (also the fallback for unrecognized names)
      refine ⟨pushIfNewHash_filterMap_nodup h1, h2, h3,
        groupHashes_pushIfNewTx_nodup h4, ?_⟩
      intro x hx
      rcases mem_pushIfNewHash (mem_filterMap_id.1 hx) with hold | hnew
      · have := hmem5 x (mem_filterMap_id.2 hold)
        unfold allGroupHashes at this ⊢
        rcases List.mem_append.1 this with hl | hr
        · exact List.mem_append.2 (.inl hl)
        · exact List.mem_append.2
            (.inr (groupHashes_subset_pushIfNewTx _ _ hr))
      · subst hnew
        unfold allGroupHashes
        exact List.mem_append.2
          (.inr (self_mem_groupHashes_pushIfNewTx _ _))

theorem removeTransactionCore_inv (s : WalletState) (v : String) (t : Tx)
    (hinv : WalletInv s) : WalletInv (removeTransactionCore s v t) := by
  obtain ⟨h1, h2, h3, h4, h5⟩ := hinv
  unfold removeTransactionCore
  split
  · exact ⟨h1, h2, h3, h4, h5⟩
  · -- an element was found in the group: the deletes run
    have hdel : ∀ (k : String), WalletInv
        (setGroupCollection
          { s with transactionHashes := jsArrayDeleteKey s.transactionHashes k }
          v (jsArrayDeleteObjectKey (getGroupCollection s v))) := by
      intro k
      have hsub := filterMap_jsArrayDeleteKey_sublist s.transactionHashes k
      have hnodup : ((jsArrayDeleteKey s.transactionHashes k).filterMap
          id).Nodup := hsub.nodup h1
      have hmem : ∀ x ∈ (jsArrayDeleteKey s.transactionHashes k).filterMap id,
          x ∈ s.transactionHashes.filterMap id := fun x hx => hsub.subset hx
      unfold setGroupCollection getGroupCollection jsArrayDeleteObjectKey
      split
      · exact ⟨hnodup, h2, h3, h4, fun x hx => h5 x (hmem x hx)⟩
      · split
        · exact ⟨hnodup, h2, h3, h4, fun x hx => h5 x (hmem x hx)⟩
        · exact ⟨hnodup, h2, h3, h4, fun x hx => h5 x (hmem x hx)⟩
    rcases hf : s.transactionHashes.find?
        (fun hash => hash = some t.meta.hash) with _ | x <;>
      simp only [hf] <;> exact hdel _

theorem ADD_TRANSACTION_ok {s : WalletState} {g : String} {t : Tx}
    {s' : WalletState} (h : ADD_TRANSACTION s g t = .ok s') :
    ∃ v, s' = addTransactionCore s v t := by
  unfold ADD_TRANSACTION at h
  split at h
  · cases h
  · cases hv : transactionGroupToStateVariable g with
    | ok v =>
      rw [hv] at h
      refine ⟨v, ?_⟩
      simpa [Bind.bind, Except.bind, pure, Except.pure] using h.symm
    | error e =>
      rw [hv] at h
      simp [Bind.bind, Except.bind] at h

theorem REMOVE_TRANSACTION_ok {s : WalletState} {g : String} {t : Tx}
    {s' : WalletState} (h : REMOVE_TRANSACTION s g t = .ok s') :
    ∃ v, s' = removeTransactionCore s v t := by
  unfold REMOVE_TRANSACTION at h
  split at h
  · cases h
  · cases hv : transactionGroupToStateVariable g with
    | ok v =>
      rw [hv] at h
      refine ⟨v, ?_⟩
      simpa [Bind.bind, Except.bind, pure, Except.pure] using h.symm
    | error e =>
      rw [hv] at h
      simp [Bind.bind, Except.bind] at h

theorem applyWalletOp_inv (s : WalletState) (op : WalletOp)
    (h : WalletInv s) : WalletInv (applyWalletOp s op) := by
  cases op with
  | addTx g t =>
    simp only [applyWalletOp]
    cases hres : ADD_TRANSACTION s g t with
    | ok s' =>
      obtain ⟨v, hv⟩ := ADD_TRANSACTION_ok hres
      rw [hv]
      exact addTransactionCore_inv s v t h
    | error e => exact h
  | removeTx g t =>
    simp only [applyWalletOp]
    cases hres : REMOVE_TRANSACTION s g t with
    | ok s' =>
      obtain ⟨v, hv⟩ := REMOVE_TRANSACTION_ok hres
      rw [hv]
      exact removeTransactionCore_inv s v t h
    | error e => exact h

theorem walletInv_initial : WalletInv initialWalletState := by
  refine ⟨?_, ?_, ?_, ?_, ?_⟩ <;>
    simp [initialWalletState, storedHashes, groupHashes, allGroupHashes]

theorem walletInv_foldl (ops : List WalletOp) (s : WalletState)
    (h : WalletInv s) : WalletInv (ops.foldl applyWalletOp s) := by
  induction ops generalizing s with
  | nil => exact h
  | cons op rest ih => exact ih _ (applyWalletOp_inv s op h)

/-! ### Behaviour of `transactionGroupToStateVariable` on valid and
invalid groups -/

theorem transactionGroupToStateVariable_ok {group : String}
    (h : jsToLower group ∈ validGroups) :
    transactionGroupToStateVariable group
      = .ok (jsToLower group ++ "Transactions") := by
  unfold transactionGroupToStateVariable
  rw [if_pos]
  simp only [validGroups, List.mem_cons, List.mem_singleton,
    List.not_mem_nil, or_false] at h
  tauto

theorem transactionGroupToStateVariable_error {group : String}
    (h : jsToLower group ∉ validGroups) :
    transactionGroupToStateVariable group
      = .error (.unknownGroup group) := by
  unfold transactionGroupToStateVariable
  rw [if_neg]
  intro hc
  apply h
  simp only [validGroups, List.mem_cons, List.mem_singleton,
    List.not_mem_nil, or_false]
  tauto

/-! ### Claim theorems for the transaction ledger -/

/-- A transaction whose hash (in both hash-carrying fields) is "A";
used in concrete counterexamples. -/
def txA : Tx := { transactionInfo := { hash := "A" }, meta := { hash := "A" } }

/-- A transaction whose hash is "B". -/
def txB : Tx := { transactionInfo := { hash := "B" }, meta := { hash := "B" } }

/-- C1 counterexample: adding the same hash "A" to the `confirmed` and
then to the `unconfirmed` group leaves "A" indexed in
`transactionHashes` while it is present in **two** group collections, so
"a hash appears in `transactionHashes` iff it appears in exactly one of
the three group collections" is false. -/
theorem c1_hash_in_two_groups :
    some "A" ∈ (runWalletOps
        [.addTx "confirmed" txA, .addTx "unconfirmed" txA]).transactionHashes
    ∧ groupsContaining
        (runWalletOps [.addTx "confirmed" txA, .addTx "unconfirmed" txA]) "A"
      = 2 := by
  decide

/-- C1 (amended): starting from the initial empty state, after any
sequence of `ADD_TRANSACTION` and `REMOVE_TRANSACTION` calls, each
distinct transaction hash occurs at most once in `transactionHashes`, no
group collection contains two transactions with the same hash, and every
hash in `transactionHashes` appears in at least one group collection —
but a hash may appear in several groups, since the per-group dedup of
`ADD_TRANSACTION` does not consult the other groups. -/
theorem c1_dedup_invariant (ops : List WalletOp) :
    WalletInv (runWalletOps ops) :=
  walletInv_foldl ops initialWalletState walletInv_initial

/-- C2: `REMOVE_TRANSACTION` is a no-op even when the transaction *is*
present in the group collection.  After adding `txA` to `confirmed`, the
removal call returns the state unchanged: `delete transactions[findIterator]`
uses the found object as a property key (never an array index) and
`delete hashes[findHashIt]` uses the hash string "A" as a property key
(not an index of the array), so neither the group collection nor the
hash index loses the entry. -/
theorem c2_remove_transaction_is_noop :
    ADD_TRANSACTION initialWalletState "confirmed" txA
        = .ok { transactionHashes := [some "A"]
                confirmedTransactions := [txA]
                unconfirmedTransactions := []
                partialTransactions := [] }
    ∧ REMOVE_TRANSACTION
        { transactionHashes := [some "A"]
          confirmedTransactions := [txA]
          unconfirmedTransactions := []
          partialTransactions := [] } "confirmed" txA
        = .ok { transactionHashes := [some "A"]
                confirmedTransactions := [txA]
                unconfirmedTransactions := []
                partialTransactions := [] } := by
  decide

/-- C7: for a supplied (non-empty) group, `ADD_TRANSACTION` and
`REMOVE_TRANSACTION` fail with the unknown-group error exactly when the
lowercased group is not one of `partial`, `unconfirmed`, `confirmed`;
for the three valid groups no such error is raised. -/
theorem c7_invalid_group_error_iff (s : WalletState) (group : String)
    (t : Tx) (hg : group ≠ "") :
    ((∃ g, ADD_TRANSACTION s group t = .error (.unknownGroup g)) ↔
        jsToLower group ∉ validGroups)
    ∧ ((∃ g, REMOVE_TRANSACTION s group t = .error (.unknownGroup g)) ↔
        jsToLower group ∉ validGroups) := by
  by_cases hmem : jsToLower group ∈ validGroups
  · have hok := transactionGroupToStateVariable_ok hmem
    constructor
    · constructor
      · rintro ⟨g, hgerr⟩
        unfold ADD_TRANSACTION at hgerr
        rw [if_neg hg, hok] at hgerr
        exact absurd hgerr (by simp [Bind.bind, Except.bind, pure, Except.pure])
      · intro hn
        exact absurd hmem hn
    · constructor
      · rintro ⟨g, hgerr⟩
        unfold REMOVE_TRANSACTION at hgerr
        rw [if_neg hg, hok] at hgerr
        exact absurd hgerr (by simp [Bind.bind, Except.bind, pure, Except.pure])
      · intro hn
        exact absurd hmem hn
  · have herr := transactionGroupToStateVariable_error hmem
    constructor
    · constructor
      · intro _
        exact hmem
      · intro _
        refine ⟨group, ?_⟩
        unfold ADD_TRANSACTION
        rw [if_neg hg, herr]
        rfl
    · constructor
      · intro _
        exact hmem
      · intro _
        refine ⟨group, ?_⟩
        unfold REMOVE_TRANSACTION
        rw [if_neg hg, herr]
        rfl

/-! ### Websocket subscription lifecycle (`SUBSCRIBE` / `UNSUBSCRIBE`) -/

/-- A channel subscription handle (an rxjs `Subscription` object),
identified by an id. -/
structure ChannelSub where
  sid : Nat
deriving DecidableEq, Repr

/-- A websocket listener connection (`nem2-sdk` `Listener`),
identified by an id. -/
structure ListenerConn where
  lid : Nat
deriving DecidableEq, Repr

/-- `SubscriptionType` (Wallet.ts lines 133-136): one listener plus its
channel subscription handles. -/
structure SubscriptionType where
  listener : ListenerConn
  subscriptions : List ChannelSub
deriving DecidableEq, Repr

/-- The `subscriptions` registry of the wallet store: a JavaScript array
used as an object keyed by address (`subscriptions[payload.address]`). -/
abbrev SubscriptionsRegistry : Type := List (String × List SubscriptionType)

/-- `addSubscriptions` mutation (Wallet.ts lines 267-276): create the
address's entry on first use, then push the payload. -/
def addSubscriptions (registry : SubscriptionsRegistry) (address : String)
    (payload : SubscriptionType) : SubscriptionsRegistry :=
  match registry.lookup address with
  | none => registry ++ [(address, [payload])]
  | some _ => registry.map
      (fun e => if e.1 = address then (e.1, e.2 ++ [payload]) else e)

/-- `SUBSCRIBE` action (Wallet.ts lines 509-524): for a non-empty
address, record the `SubscriptionType` obtained from
`RESTService.subscribeTransactionChannels` (passed in here as the
external collaborator's result). -/
def SUBSCRIBE (registry : SubscriptionsRegistry) (address : String)
    (fromRest : SubscriptionType) : SubscriptionsRegistry :=
  if address = "" then registry
  else addSubscriptions registry address fromRest

/-- JavaScript numeric coercion of the loop bound in
`for (let j = 0, n = subscription.subscriptions; j < n; j++)`
(Wallet.ts line 534): `n` is the subscriptions *array*, so `j < n`
coerces the array to a number — the empty array coerces to 0, and a
non-empty array of Subscription objects stringifies to
"[object Object],..." which coerces to NaN (`none` here). -/
def subscriptionArrayToNumber (subs : List ChannelSub) : Option Nat :=
  match subs with
  | [] => some 0
  | _ => none

/-- Number of executed iterations of that loop: `j < NaN` is false for
every `j`, and with an empty array the bound is 0. -/
def unsubscribeLoopIterations (subs : List ChannelSub) : Nat :=
  match subscriptionArrayToNumber subs with
  | none => 0
  | some n => n

/-- Observable outcome of one `UNSUBSCRIBE` call: the channel handles
whose `unsubscribe()` ran, the listeners whose `close()` ran (in call
order), and the resulting registry. -/
structure UnsubscribeResult where
  cancelled : List ChannelSub
  closed : List ListenerConn
  registry : SubscriptionsRegistry
deriving DecidableEq, Repr

/-- `UNSUBSCRIBE` action (Wallet.ts lines 527-543): iterate the
address's recorded `SubscriptionType`s; for each, run the inner
`unsubscribe()` loop (whose bound is the array itself — see
`subscriptionArrayToNumber`), then `listener.close()`; finally
`RESET_SUBSCRIPTIONS` commits `setSubscriptions([])`, clearing the whole
registry. -/
def UNSUBSCRIBE (registry : SubscriptionsRegistry) (address : String) :
    UnsubscribeResult :=
  let subsByAddress := match registry.lookup address with
    | some l => l
    | none => []
  { cancelled := subsByAddress.flatMap
      (fun st => st.subscriptions.take
        (unsubscribeLoopIterations st.subscriptions))
    closed := subsByAddress.map (fun st => st.listener)
    registry := [] }

/-- C3: after `SUBSCRIBE(addr)` records a listener with two channel
handles, `UNSUBSCRIBE(addr)` clears the registry and closes the
listener, but invokes `unsubscribe()` on **none** of the recorded
channel handles: the inner loop's bound is the subscriptions array
itself, and `j < array` coerces the array to NaN, so the loop body never
runs. -/
theorem c3_unsubscribe_cancels_nothing :
    List.lookup "SCA4ET" (UNSUBSCRIBE (SUBSCRIBE [] "SCA4ET"
        { listener := { lid := 1 }
          subscriptions := [{ sid := 10 }, { sid := 11 }] }) "SCA4ET").registry
      = none
    ∧ (UNSUBSCRIBE (SUBSCRIBE [] "SCA4ET"
        { listener := { lid := 1 }
          subscriptions := [{ sid := 10 }, { sid := 11 }] }) "SCA4ET").cancelled
        = []
    ∧ (UNSUBSCRIBE (SUBSCRIBE [] "SCA4ET"
        { listener := { lid := 1 }
          subscriptions := [{ sid := 10 }, { sid := 11 }] }) "SCA4ET").closed
        = [{ lid := 1 }] := by
  decide

/-! ### `initialize` and `SET_CURRENT_WALLET` -/

/-- Actions dispatched by the `initialize` callback, in order. -/
inductive WalletAction where
  | restFetchInfo
  | restFetchTransactions
  | restFetchOwnedMosaics
  | restFetchOwnedNamespaces
  | subscribeChannels
deriving DecidableEq, Repr

/-- The `options` object read by `initialize` (Wallet.ts lines 338-343):
`skipTransactions` and `skipOwnedAssets` flags; an absent flag is falsy. -/
structure InitOptions where
  skipTransactions : Bool
  skipOwnedAssets : Bool
deriving DecidableEq, Repr

/-- The `{address, options}` payload destructured by `initialize`;
`options := none` models an absent/`undefined` `options` property. -/
structure InitializePayload where
  address : String
  options : Option InitOptions
deriving DecidableEq, Repr

/-- The dispatches performed by the `initialize` callback (Wallet.ts
lines 344-372): nothing for an empty address; otherwise
`REST_FETCH_INFO`, then `REST_FETCH_TRANSACTIONS` unless
`options.skipTransactions`, then the owned-asset fetches unless
`options.skipOwnedAssets`, then `SUBSCRIBE`. -/
def initializeDispatches (p : InitializePayload) : List WalletAction :=
  if p.address = "" then []
  else
    [WalletAction.restFetchInfo]
      ++ (if (match p.options with
              | none => true
              | some o => !o.skipTransactions) = true then
            [WalletAction.restFetchTransactions]
          else [])
      ++ (if (match p.options with
              | none => true
              | some o => !o.skipOwnedAssets) = true then
            [WalletAction.restFetchOwnedMosaics,
              WalletAction.restFetchOwnedNamespaces]
          else [])
      ++ [WalletAction.subscribeChannels]

/-- `options` of `SET_CURRENT_WALLET` (Wallet.ts lines 384-389). -/
structure SetCurrentWalletOptions where
  isCosignatoryMode : Bool
deriving DecidableEq, Repr

/-- The object literal `{address: address.plain(), forwardOpts}` built
at Wallet.ts line 417 and dispatched to `initialize`: it carries the
computed flags under the property name `forwardOpts` (object shorthand),
and has no `options` property. -/
structure SetCurrentWalletDispatchPayload where
  address : String
  forwardOpts : InitOptions
deriving DecidableEq, Repr

/-- `SET_CURRENT_WALLET`'s computation of the payload it dispatches to
`initialize` (Wallet.ts lines 407-417): `forwardOpts` starts as `{}`
(both flags falsy) and becomes `{skipTransactions: true,
skipOwnedAssets: false}` when `options.isCosignatoryMode === true`. -/
def setCurrentWalletInitDispatch (address : String)
    (options : Option SetCurrentWalletOptions) :
    SetCurrentWalletDispatchPayload :=
  { address := address
    forwardOpts :=
      match options with
      | some o =>
        if o.isCosignatoryMode then
          { skipTransactions := true, skipOwnedAssets := false }
        else { skipTransactions := false, skipOwnedAssets := false }
      | none => { skipTransactions := false, skipOwnedAssets := false } }

/-- Destructuring `{address, options}` (the parameter pattern of
`initialize`) against the dispatched object: the object has an `address`
property but no `options` property, so `options` is `undefined`. -/
def destructureInitPayload (p : SetCurrentWalletDispatchPayload) :
    InitializePayload :=
  { address := p.address, options := none }

/-- C5: with `options.isCosignatoryMode = true`, the `initialize`
triggered by `SET_CURRENT_WALLET` still dispatches the
confirmed-transactions REST fetch (the skip flags are passed under the
property name `forwardOpts` instead of `options`, so `initialize` sees
`options = undefined`); the subscriptions are opened as claimed. -/
theorem c5_cosignatory_mode_still_fetches_transactions :
    WalletAction.restFetchTransactions ∈
      initializeDispatches (destructureInitPayload
        (setCurrentWalletInitDispatch "SCA4ET" (some { isCosignatoryMode := true })))
    ∧ WalletAction.subscribeChannels ∈
      initializeDispatches (destructureInitPayload
        (setCurrentWalletInitDispatch "SCA4ET" (some { isCosignatoryMode := true })))
    ∧ (setCurrentWalletInitDispatch "SCA4ET"
        (some { isCosignatoryMode := true })).forwardOpts.skipTransactions = true := by
  decide

/-! ### REST fetch error handling -/

/-- Classification of what a REST fetch action hands back to its caller
(when it does not throw). -/
inductive FetchOutcome (α : Type) where
  /-- the normal value computed in the `try` branch -/
  | value : α → FetchOutcome α
  /-- the bare `return ;` taken on an invalid address -/
  | earlyExit : FetchOutcome α
  /-- `return false` in the `catch` branch -/
  | sentinelFalse : FetchOutcome α
  /-- `return null` in the `catch` branch -/
  | sentinelNull : FetchOutcome α
deriving DecidableEq, Repr

/-- Account info fetched from REST; only its presence matters to the
error-handling claims, the committed fields are opaque here. -/
structure AccountInfo where
  address : String
deriving DecidableEq, Repr

/-- `REST_FETCH_TRANSACTIONS` (Wallet.ts lines 547-599).  `rest` is the
outcome of the external REST collaborator (`getAccount*Transactions`).
Unrecognized groups fall back to `confirmed`; a non-40-character address
returns early; fetched transactions are funneled through
`ADD_TRANSACTION`; a collaborator failure is logged and `false` is
returned. -/
def REST_FETCH_TRANSACTIONS (s : WalletState) (group address : String)
    (rest : Except String (List Tx)) :
    Except String (WalletState × FetchOutcome (List Tx)) :=
  let group := if group = "partial" ∨ group = "unconfirmed" ∨ group = "confirmed"
    then group else "confirmed"
  if address.length ≠ 40 then .ok (s, .earlyExit)
  else
    match rest with
    | .ok transactions =>
      let s' := transactions.foldl
        (fun st t =>
          match ADD_TRANSACTION st group t with
          | .ok st' => st'
          | .error _ => st) s
      .ok (s', .value transactions)
    | .error _ => .ok (s, .sentinelFalse)

/-- `REST_FETCH_INFO` (Wallet.ts lines 613-647): non-40-character
addresses return early; a failure thrown by the REST setup/call is
caught, logged and turned into `return false`.  (A failure delivered
asynchronously through the observable's error callback only dispatches
`SET_BALANCES([])` — it does not throw either.) -/
def REST_FETCH_INFO (address : String)
    (rest : Except String AccountInfo) :
    Except String (FetchOutcome AccountInfo) :=
  if address.length ≠ 40 then .ok .earlyExit
  else
    match rest with
    | .ok info => .ok (.value info)
    | .error _ => .ok .sentinelFalse

/-- `REST_FETCH_INFOS` (Wallet.ts lines 648-683): no address check; on a
collaborator failure the error is logged and then **rethrown**
(`throw new Error(e)`). -/
def REST_FETCH_INFOS (addresses : List String)
    (rest : Except String (List AccountInfo)) :
    Except String (FetchOutcome (List AccountInfo)) :=
  match rest with
  | .ok accountsInfo => .ok (.value accountsInfo)
  | .error e => .error e

/-- `REST_FETCH_MULTISIG` (Wallet.ts lines 684-713): address check, then
catch → log → `return false`. -/
def REST_FETCH_MULTISIG (address : String)
    (rest : Except String AccountInfo) :
    Except String (FetchOutcome AccountInfo) :=
  if address.length ≠ 40 then .ok .earlyExit
  else
    match rest with
    | .ok info => .ok (.value info)
    | .error _ => .ok .sentinelFalse

/-- `REST_FETCH_OWNED_MOSAICS` (Wallet.ts lines 714-747): address check,
then catch → log → `return false`. -/
def REST_FETCH_OWNED_MOSAICS (address : String)
    (rest : Except String (List String)) :
    Except String (FetchOutcome (List String)) :=
  if address.length ≠ 40 then .ok .earlyExit
  else
    match rest with
    | .ok mosaics => .ok (.value mosaics)
    | .error _ => .ok .sentinelFalse

/-- `REST_FETCH_OWNED_NAMESPACES` (Wallet.ts lines 748-784): address
check, then catch → log → `return null`. -/
def REST_FETCH_OWNED_NAMESPACES (address : String)
    (rest : Except String (List String)) :
    Except String (FetchOutcome (List String)) :=
  if address.length ≠ 40 then .ok .earlyExit
  else
    match rest with
    | .ok namespaces => .ok (.value namespaces)
    | .error _ => .ok .sentinelNull

/-- C6 counterexample: a failing REST collaborator makes
`REST_FETCH_INFOS` throw — the failure propagates as an exception out of
the store instead of being returned as a sentinel. -/
theorem c6_rest_fetch_infos_throws :
    REST_FETCH_INFOS ["SCA4ET"] (.error "connection refused")
      = .error "connection refused" := by
  decide

/-- C6 (amended): for every REST fetch action except `REST_FETCH_INFOS`,
a failing REST collaborator is logged and turned into a non-throwing
sentinel return (`false`; `null` for `REST_FETCH_OWNED_NAMESPACES`);
`REST_FETCH_INFOS` logs the failure and rethrows it to its caller. -/
theorem c6_rest_failure_sentinels (s : WalletState) (group address e : String)
    (addresses : List String) (haddr : address.length = 40) :
    REST_FETCH_TRANSACTIONS s group address (.error e) = .ok (s, .sentinelFalse)
    ∧ REST_FETCH_INFO address (.error e) = .ok .sentinelFalse
    ∧ REST_FETCH_MULTISIG address (.error e) = .ok .sentinelFalse
    ∧ REST_FETCH_OWNED_MOSAICS address (.error e) = .ok .sentinelFalse
    ∧ REST_FETCH_OWNED_NAMESPACES address (.error e) = .ok .sentinelNull
    ∧ REST_FETCH_INFOS addresses (.error e) = .error e := by
  unfold REST_FETCH_TRANSACTIONS REST_FETCH_INFO REST_FETCH_MULTISIG
    REST_FETCH_OWNED_MOSAICS REST_FETCH_OWNED_NAMESPACES REST_FETCH_INFOS
  simp [haddr]

/-- Witness for C6 at a concrete 40-character address. -/
theorem c6_rest_failure_sentinels_witness :
    REST_FETCH_TRANSACTIONS initialWalletState "confirmed"
        "SCA4ET0000000000000000000000000000000000" (.error "timeout")
      = .ok (initialWalletState, .sentinelFalse)
    ∧ REST_FETCH_OWNED_NAMESPACES "SCA4ET0000000000000000000000000000000000"
        (.error "timeout") = .ok .sentinelNull :=
  ⟨(c6_rest_failure_sentinels initialWalletState "confirmed"
      "SCA4ET0000000000000000000000000000000000" "timeout" [] (by decide)).1,
    (c6_rest_failure_sentinels initialWalletState "confirmed"
      "SCA4ET0000000000000000000000000000000000" "timeout" [] (by decide)).2.2.2.2.1⟩

/-! ### `DatabaseModel` (src/core/database/DatabaseModel.ts) -/

/-- `DatabaseModel`: declared primary-key field names and the values
map.  The values relevant to identity are strings (field values of the
entity). -/
structure DatabaseModel where
  primaryKeys : List String
  values : List (String × String)
deriving DecidableEq, Repr

/-- JavaScript `Array.prototype.join` stringification of one mapped
value: a present value joins as itself; `undefined` (a primary-key field
missing from `values`) joins as the empty string. -/
def joinValue (v : Option String) : String := v.getD ""

/-- `DatabaseModel.getIdentifier` (DatabaseModel.ts lines 70-76): throws
when no primary keys are declared; otherwise maps each declared
primary-key field to its value and joins with "-". -/
def DatabaseModel.getIdentifier (m : DatabaseModel) :
    Except String String :=
  if m.primaryKeys.length = 0 then
    .error "Primary keys must be described in derivate DatabaseModel classes."
  else
    .ok (String.intercalate "-"
      (m.primaryKeys.map (fun pk => joinValue (m.values.lookup pk))))

/-- `DatabaseModel.hasIdentifier` (DatabaseModel.ts lines 82-95): throws
when no primary keys are declared; otherwise true iff every primary-key
field has a value. -/
def DatabaseModel.hasIdentifier (m : DatabaseModel) :
    Except String Bool :=
  if m.primaryKeys.length = 0 then
    .error "Primary keys must be described in derivate DatabaseModel classes."
  else
    .ok (m.primaryKeys.all (fun pk => (m.values.lookup pk).isSome))

/-- C9: for every model with a non-empty primary-key list and a value
for every primary-key field, `getIdentifier` returns the values at the
primary-key fields, in declared order, joined by "-"; for primary keys
`[a, b]` with values `{a: X, b: Y}` it returns `X-Y`. -/
theorem c9_getIdentifier_join (m : DatabaseModel) (a b X Y : String)
    (hne : m.primaryKeys ≠ [])
    (hall : ∀ pk ∈ m.primaryKeys, (m.values.lookup pk).isSome)
    (hab : a ≠ b) :
    m.getIdentifier = .ok (String.intercalate "-"
        (m.primaryKeys.map (fun pk => joinValue (m.values.lookup pk))))
    ∧ DatabaseModel.getIdentifier
        { primaryKeys := [a, b], values := [(a, X), (b, Y)] }
      = .ok (String.intercalate "-" [X, Y]) := by
  constructor
  · unfold DatabaseModel.getIdentifier
    rw [if_neg]
    simpa using hne
  · unfold DatabaseModel.getIdentifier
    rw [if_neg (by simp)]
    have hba : (b == a) = false := by
      simp only [beq_eq_false_iff_ne, ne_eq]
      exact fun h => hab h.symm
    simp [List.lookup, hba, joinValue]

/-- Witness for C9: primary keys `[address, name]` and values
`{address: X, name: Y}` give the identifier "X-Y". -/
theorem c9_getIdentifier_join_witness :
    DatabaseModel.getIdentifier
      { primaryKeys := ["address", "name"]
        values := [("address", "X"), ("name", "Y")] } = .ok "X-Y" := by
  have h := c9_getIdentifier_join
    { primaryKeys := ["address", "name"]
      values := [("address", "X"), ("name", "Y")] }
    "address" "name" "X" "Y" (by decide) (by decide) (by decide)
  rw [h.1]
  decide

/-! ### `BaseStorageAdapter` (src/core/database/BaseStorageAdapter.ts) -/

/-- `DatabaseTable`: schema descriptor — table name (storage key) and
declared columns. -/
structure DatabaseTable where
  tableName : String
  columns : List String
deriving DecidableEq, Repr

/-- `IDataFormatter`: validation of the raw stored string, parsing into
a collection, serialization of a collection. -/
structure DataFormatter where
  validate : String → Bool
  parse : String → List (String × DatabaseModel)
  format : List (String × DatabaseModel) → String

/-- Errors thrown by the adapter. -/
inductive AdapterError where
  /-- "Schema with identifier '…' is not registered." -/
  | schemaNotRegistered : String → AdapterError
  /-- "Data stored for schema '…' does not comply with IDataFormatter
  derivate." -/
  | invalidStoredFormat : String → AdapterError
deriving DecidableEq, Repr

/-- `IStorageBackend.setItem`: store a value under a key, overwriting
the slot. -/
def setItem (storage : List (String × String)) (key value : String) :
    List (String × String) :=
  if (storage.lookup key).isSome then
    storage.map (fun e => if e.1 = key then (key, value) else e)
  else storage ++ [(key, value)]

/-- `BaseStorageAdapter`: storage backend (key/value), data formatter,
and the registry of table schemas by schema id. -/
structure BaseStorageAdapter where
  storage : List (String × String)
  formatter : DataFormatter
  schemas : List (String × DatabaseTable)

/-- `BaseStorageAdapter.read` (lines 73-90): throw if the schema id is
unregistered; fetch the raw value stored under the *table name*
(`|| ''` when absent); throw if formatter validation fails; otherwise
parse. -/
def BaseStorageAdapter.read (a : BaseStorageAdapter) (schemaId : String) :
    Except AdapterError (List (String × DatabaseModel)) :=
  match a.schemas.lookup schemaId with
  | none => .error (.schemaNotRegistered schemaId)
  | some schema =>
    let data := (a.storage.lookup schema.tableName).getD ""
    if a.formatter.validate data = false then
      .error (.invalidStoredFormat schemaId)
    else
      .ok (a.formatter.parse data)

/-- `BaseStorageAdapter.write` (lines 97-110): throw if the schema id is
unregistered; otherwise serialize the collection, persist it (under the
*schema id* key — the code reads `schema` but stores under `schemaId`)
and return `entities.size`. -/
def BaseStorageAdapter.write (a : BaseStorageAdapter) (schemaId : String)
    (entities : List (String × DatabaseModel)) :
    Except AdapterError (BaseStorageAdapter × Nat) :=
  match a.schemas.lookup schemaId with
  | none => .error (.schemaNotRegistered schemaId)
  | some _ =>
    let data := a.formatter.format entities
    .ok ({ a with storage := setItem a.storage schemaId data },
      entities.length)

/-- C8: `read` and `write` throw the schema-not-registered error exactly
when the schema id is absent from the registry; with a registered
schema, `write` serializes via the formatter, persists, and returns the
number of entities in the given mapping. -/
theorem c8_adapter_schema_errors (a : BaseStorageAdapter) (schemaId : String)
    (entities : List (String × DatabaseModel)) :
    ((∃ m, a.read schemaId = .error (.schemaNotRegistered m)) ↔
        a.schemas.lookup schemaId = none)
    ∧ ((∃ m, a.write schemaId entities = .error (.schemaNotRegistered m)) ↔
        a.schemas.lookup schemaId = none)
    ∧ (a.schemas.lookup schemaId ≠ none →
        ∃ a2, a.write schemaId entities = .ok (a2, entities.length)
          ∧ a2.storage
            = setItem a.storage schemaId (a.formatter.format entities)) := by
  cases hs : a.schemas.lookup schemaId with
  | none =>
    refine ⟨⟨fun _ => rfl, fun _ => ⟨schemaId, ?_⟩⟩,
      ⟨fun _ => rfl, fun _ => ⟨schemaId, ?_⟩⟩, fun hc => absurd rfl hc⟩
    · unfold BaseStorageAdapter.read
      rw [hs]
    · unfold BaseStorageAdapter.write
      rw [hs]
  | some schema =>
    have hread : a.read schemaId
        = if a.formatter.validate
            ((a.storage.lookup schema.tableName).getD "") = false then
          .error (.invalidStoredFormat schemaId)
        else .ok (a.formatter.parse
          ((a.storage.lookup schema.tableName).getD "")) := by
      unfold BaseStorageAdapter.read
      rw [hs]
    have hwrite : a.write schemaId entities
        = .ok ({ a with storage := setItem a.storage schemaId (a.formatter.format entities) }, entities.length) := by
      unfold BaseStorageAdapter.write
      rw [hs]
    refine ⟨⟨?_, by simp⟩, ⟨?_, by simp⟩, fun _ => ⟨_, hwrite, rfl⟩⟩
    · rintro ⟨m, hm⟩
      rw [hread] at hm
      split at hm <;> simp at hm
    · rintro ⟨m, hm⟩
      rw [hwrite] at hm
      simp at hm

/-- An adapter with only the "wallets" schema registered (trivial
formatter), used to witness C8. -/
def walletsOnlyAdapter : BaseStorageAdapter :=
  { storage := []
    formatter :=
      { validate := fun _ => true
        parse := fun _ => []
        format := fun _ => "" }
    schemas := [("wallets", { tableName := "wallets", columns := ["name"] })] }

/-- Two wallet entities, used to witness C8's write count. -/
def twoWalletEntities : List (String × DatabaseModel) :=
  [("w1", { primaryKeys := ["name"], values := [("name", "w1")] }),
    ("w2", { primaryKeys := ["name"], values := [("name", "w2")] })]

/-- Witness for C8: an adapter with only "wallets" registered rejects
`read("unknown")` and accepts a two-entity `write("wallets", …)`,
returning 2. -/
theorem c8_adapter_schema_errors_witness :
    (∃ m, walletsOnlyAdapter.read "unknown"
        = .error (.schemaNotRegistered m))
    ∧ ∃ p, walletsOnlyAdapter.write "wallets" twoWalletEntities
        = .ok (p, 2) := by
  constructor
  · exact (c8_adapter_schema_errors walletsOnlyAdapter "unknown" []).1.mpr
      (by decide)
  · obtain ⟨a2, h1, _⟩ :=
      (c8_adapter_schema_errors walletsOnlyAdapter "wallets"
        twoWalletEntities).2.2 (by decide)
    exact ⟨a2, h1⟩

/-! ### The network store's `networkType` mutation -/

/-- The four recognized `NetworkType` enum values of nem2-sdk:
`MIJIN_TEST = 0x90`, `MIJIN = 0x60`, `TEST_NET = 0x98`,
`MAIN_NET = 0x68`. -/
def recognizedNetworkTypes : List Nat := [144, 96, 152, 104]

/-- The fields of the network store state written by its mutations
(network store, `state`): `networkType` starts as
`NetworkType.MIJIN_TEST` (144). -/
structure NetworkState where
  initialized : Bool
  isConnected : Bool
  currentHeight : Nat
  networkType : Nat
  knownPeers : List String
deriving DecidableEq, Repr

/-- The network store's initial state (networkType starts at
MIJIN_TEST). -/
def initialNetworkState : NetworkState :=
  { initialized := false
    isConnected := false
    currentHeight := 0
    networkType := 144
    knownPeers := [] }

/-- The `networkType` mutation (network store): a recognized value is
stored as given (`switch` over the four enum cases), anything else —
including `undefined` (`none`) — stores the default `MIJIN_TEST`. -/
def networkTypeMutation (s : NetworkState) (type : Option Nat) :
    NetworkState :=
  match type with
  | some t =>
    if t = 144 ∨ t = 96 ∨ t = 152 ∨ t = 104 then { s with networkType := t }
    else { s with networkType := 144 }
  | none => { s with networkType := 144 }

/-- The other mutations of the network store that write state fields
modeled here; none of them writes `networkType`.  (`removePeer` throws a
TypeError before mutating — `findIndex` is passed a string instead of a
predicate — so its state effect is identity.) -/
inductive NetworkMutation where
  | setInitialized : Bool → NetworkMutation
  | setConnected : Bool → NetworkMutation
  | currentHeightMut : Nat → NetworkMutation
  | networkTypeMut : Option Nat → NetworkMutation
  | addPeer : String → NetworkMutation
  | removePeer : String → NetworkMutation
  | resetPeers : List String → NetworkMutation
deriving DecidableEq, Repr

/-- Apply one network store mutation. -/
def applyNetworkMutation (s : NetworkState) :
    NetworkMutation → NetworkState
  | .setInitialized b => { s with initialized := b }
  | .setConnected b => { s with isConnected := b }
  | .currentHeightMut h => { s with currentHeight := h }
  | .networkTypeMut t => networkTypeMutation s t
  | .addPeer url => { s with knownPeers := s.knownPeers ++ [url] }
  | .removePeer _ => s
  | .resetPeers nodes => { s with knownPeers := nodes }

/-- C10: the `networkType` mutation stores a recognized value as given
and anything else (including `undefined`) as the default `MIJIN_TEST`;
consequently, starting from the initial state (MIJIN_TEST), after any
sequence of network store mutations `networkType` is one of the four
recognized network types. -/
theorem c10_networkType_recognized :
    (∀ (s : NetworkState) (t : Nat),
        (networkTypeMutation s (some t)).networkType
          = if t ∈ recognizedNetworkTypes then t else 144)
    ∧ (∀ s : NetworkState, (networkTypeMutation s none).networkType = 144)
    ∧ ∀ muts : List NetworkMutation,
        (muts.foldl applyNetworkMutation initialNetworkState).networkType
          ∈ recognizedNetworkTypes := by
  refine ⟨?_, fun s => rfl, ?_⟩
  · intro s t
    simp only [networkTypeMutation]
    by_cases ht : t = 144 ∨ t = 96 ∨ t = 152 ∨ t = 104
    · have hm : t ∈ recognizedNetworkTypes := by
        simp only [recognizedNetworkTypes, List.mem_cons, List.mem_singleton,
          List.not_mem_nil, or_false]
        tauto
      rw [if_pos ht, if_pos hm]
    · have hm : t ∉ recognizedNetworkTypes := by
        simp only [recognizedNetworkTypes, List.mem_cons, List.mem_singleton,
          List.not_mem_nil, or_false]
        tauto
      rw [if_neg ht, if_neg hm]
  · have hpres : ∀ (s : NetworkState) (m : NetworkMutation),
        s.networkType ∈ recognizedNetworkTypes →
        (applyNetworkMutation s m).networkType ∈ recognizedNetworkTypes := by
      intro s m hm
      cases m with
      | networkTypeMut t =>
        cases t with
        | none => simp [applyNetworkMutation, networkTypeMutation,
            recognizedNetworkTypes]
        | some v =>
          simp only [applyNetworkMutation, networkTypeMutation]
          split
          · next hv =>
            simp only [recognizedNetworkTypes, List.mem_cons,
              List.mem_singleton, List.not_mem_nil, or_false]
            tauto
          · simp [recognizedNetworkTypes]
      | setInitialized b => exact hm
      | setConnected b => exact hm
      | currentHeightMut h => exact hm
      | addPeer u => exact hm
      | removePeer u => exact hm
      | resetPeers n => exact hm
    intro muts
    have : ∀ (s : NetworkState), s.networkType ∈ recognizedNetworkTypes →
        (muts.foldl applyNetworkMutation s).networkType
          ∈ recognizedNetworkTypes := by
      induction muts with
      | nil => exact fun s hs => hs
      | cons m rest ih => exact fun s hs => ih _ (hpres s m hs)
    exact this initialNetworkState (by decide)

/-! ### AwaitLock (spec-modelled)

The `AwaitLock` implementation (`src/store/AwaitLock.ts`) is not among
the reviewed sources — only its callers are — so the lock is modelled
from §4.4 of the specification: `initialize`/`uninitialize` acquire the
lock (queueing while it is held), run their callback only after
acquisition, and release the lock on completion *or failure* (release on
all exit paths).  Callbacks run on a single-threaded cooperative event
loop: each unit of callback work is a separate step, and an arbitrary
schedule interleaves the two overlapping calls' progress. -/

/-- One instruction of a locked call: acquire the lock, perform one
unit of callback work, or release the lock. -/
inductive LockInstr where
  | acquire : LockInstr
  | work : LockInstr
  | release : LockInstr
deriving DecidableEq, Repr

/-- Modelled from the spec (§4.4): the instruction sequence of one
`initialize`/`uninitialize` call whose callback performs `k` units of
work before completing (or failing — either way the release runs). -/
def lockProgram (k : Nat) : List LockInstr :=
  LockInstr.acquire :: (List.replicate k LockInstr.work ++ [LockInstr.release])

/-- Observable events: callback of call `i` started executing,
performed one unit of work, or completed (the lock being released). -/
inductive LockEvent where
  | started : Nat → LockEvent
  | stepped : Nat → LockEvent
  | completed : Nat → LockEvent
deriving DecidableEq, Repr

/-- Scheduler state for two overlapping calls (ids 1 and 2): the lock
bit, the FIFO wait queue, each call's remaining instructions, and the
event trace so far. -/
structure LockSched where
  lockHeld : Bool
  queue : List Nat
  progA : List LockInstr
  progB : List LockInstr
  trace : List LockEvent
deriving DecidableEq, Repr

/-- One scheduler tick given to call 1: an `acquire` proceeds only when
the lock is free and no other call is queued ahead (otherwise the call
queues and waits); `work` emits one callback step; `release` frees the
lock. -/
def stepA (st : LockSched) : LockSched :=
  match st.progA with
  | [] => st
  | LockInstr.acquire :: rest =>
    if st.lockHeld then
      if 1 ∈ st.queue then st else { st with queue := st.queue ++ [1] }
    else
      if st.queue = [] ∨ st.queue.head? = some 1 then
        { st with
          lockHeld := true
          queue := st.queue.drop 1
          progA := rest
          trace := st.trace ++ [LockEvent.started 1] }
      else
        if 1 ∈ st.queue then st else { st with queue := st.queue ++ [1] }
  | LockInstr.work :: rest =>
    { st with progA := rest, trace := st.trace ++ [LockEvent.stepped 1] }
  | LockInstr.release :: rest =>
    { st with
      lockHeld := false
      progA := rest
      trace := st.trace ++ [LockEvent.completed 1] }

/-- One scheduler tick given to call 2. -/
def stepB (st : LockSched) : LockSched :=
  match st.progB with
  | [] => st
  | LockInstr.acquire :: rest =>
    if st.lockHeld then
      if 2 ∈ st.queue then st else { st with queue := st.queue ++ [2] }
    else
      if st.queue = [] ∨ st.queue.head? = some 2 then
        { st with
          lockHeld := true
          queue := st.queue.drop 1
          progB := rest
          trace := st.trace ++ [LockEvent.started 2] }
      else
        if 2 ∈ st.queue then st else { st with queue := st.queue ++ [2] }
  | LockInstr.work :: rest =>
    { st with progB := rest, trace := st.trace ++ [LockEvent.stepped 2] }
  | LockInstr.release :: rest =>
    { st with
      lockHeld := false
      progB := rest
      trace := st.trace ++ [LockEvent.completed 2] }

/-- Give one tick to the call chosen by the schedule; other ids idle. -/
def lockStep (st : LockSched) (i : Nat) : LockSched :=
  if i = 1 then stepA st else if i = 2 then stepB st else st

/-- Run a whole schedule. -/
def runLockSchedule (schedule : List Nat) (st : LockSched) : LockSched :=
  schedule.foldl lockStep st

/-- Two overlapping calls dispatched back-to-back: call 1's callback has
`kA` work units, call 2's has `kB`; lock initially free, nothing queued,
no events yet. -/
def twoLockCalls (kA kB : Nat) : LockSched :=
  { lockHeld := false
    queue := []
    progA := lockProgram kA
    progB := lockProgram kB
    trace := [] }

/-- A call is *mid-callback* when its remaining instructions start with
`work` or `release` (i.e. it has acquired and not yet released). -/
def midFlag : List LockInstr → Bool
  | LockInstr.work :: _ => true
  | LockInstr.release :: _ => true
  | _ => false

/-- Number of calls currently mid-callback. -/
def midCount (st : LockSched) : Nat :=
  (if midFlag st.progA then 1 else 0) + (if midFlag st.progB then 1 else 0)

/-- A remaining program is canonical: a full `lockProgram`, the body of
one (work units then the release), or finished. -/
def progCanonical (p : List LockInstr) : Prop :=
  (∃ k, p = lockProgram k)
  ∨ (∃ k, p = List.replicate k LockInstr.work ++ [LockInstr.release])
  ∨ p = []

/-- Number of `started` events in a trace. -/
def startedCount (tr : List LockEvent) : Nat :=
  tr.countP (fun e => match e with | LockEvent.started _ => true | _ => false)

/-- Number of `completed` events in a trace. -/
def completedCount (tr : List LockEvent) : Nat :=
  tr.countP (fun e => match e with | LockEvent.completed _ => true | _ => false)

/-- Scheduler invariant: programs canonical, the lock bit counts the
mid-callback calls (so at most one), and the trace's started/completed
balance equals the number of mid-callback calls. -/
def LockInv (st : LockSched) : Prop :=
  progCanonical st.progA ∧ progCanonical st.progB
  ∧ midCount st = (if st.lockHeld then 1 else 0)
  ∧ startedCount st.trace = completedCount st.trace + midCount st

/-- Trace property expressing mutual exclusion: every prefix has at most
one callback in flight, and whenever a callback starts, no callback is
in flight. -/
def TraceOK (st : LockSched) : Prop :=
  (∀ p, p <+: st.trace → startedCount p ≤ completedCount p + 1)
  ∧ ∀ q j, q ++ [LockEvent.started j] <+: st.trace →
      startedCount q = completedCount q

theorem prefix_snoc_cases {α} {p l : List α} {a : α} (h : p <+: l ++ [a]) :
    p <+: l ∨ p = l ++ [a] := by
  rcases Nat.lt_or_ge p.length (l ++ [a]).length with hlt | hge
  · left
    have htake := List.prefix_iff_eq_take.1 h
    have hlen : p.length ≤ l.length := by
      have h2 : p.length < l.length + 1 := by simpa using hlt
      omega
    rw [htake, List.take_append_eq_append_take, Nat.sub_eq_zero_of_le hlen]
    simp only [List.take_zero, List.append_nil]
    exact List.take_prefix _ _
  · right
    exact h.eq_of_length (Nat.le_antisymm h.length_le (by simpa using hge))

theorem snoc_inj {α} {q l : List α} {x e : α} (h : q ++ [x] = l ++ [e]) :
    q = l ∧ x = e := by
  have h2 := List.append_inj' h (by simp)
  exact ⟨h2.1, by simpa using h2.2⟩

theorem startedCount_append (a b : List LockEvent) :
    startedCount (a ++ b) = startedCount a + startedCount b :=
  List.countP_append _ _ _

theorem completedCount_append (a b : List LockEvent) :
    completedCount (a ++ b) = completedCount a + completedCount b :=
  List.countP_append _ _ _

theorem midFlag_body (k : Nat) :
    midFlag (List.replicate k LockInstr.work ++ [LockInstr.release])
      = true := by
  cases k <;> simp [midFlag, List.replicate]

theorem canonical_body (k : Nat) :
    progCanonical (List.replicate k LockInstr.work ++ [LockInstr.release]) :=
  .inr (.inl ⟨k, rfl⟩)

theorem canonical_acquire {rest : List LockInstr}
    (h : progCanonical (LockInstr.acquire :: rest)) :
    ∃ k, rest = List.replicate k LockInstr.work ++ [LockInstr.release] := by
  rcases h with ⟨k, hk⟩ | ⟨k, hk⟩ | hk
  · exact ⟨k, by simpa [lockProgram] using hk⟩
  · cases k <;> simp [List.replicate] at hk
  · cases hk

theorem canonical_work {rest : List LockInstr}
    (h : progCanonical (LockInstr.work :: rest)) :
    ∃ k, rest = List.replicate k LockInstr.work ++ [LockInstr.release] := by
  rcases h with ⟨k, hk⟩ | ⟨k, hk⟩ | hk
  · simp [lockProgram] at hk
  · cases k with
    | zero => simp [List.replicate] at hk
    | succ k2 =>
      refine ⟨k2, ?_⟩
      have hk2 : LockInstr.work :: rest = LockInstr.work ::
          (List.replicate k2 LockInstr.work ++ [LockInstr.release]) := by
        simpa [List.replicate] using hk
      injection hk2 with h1 h2
  · cases hk

theorem canonical_release {rest : List LockInstr}
    (h : progCanonical (LockInstr.release :: rest)) : rest = [] := by
  rcases h with ⟨k, hk⟩ | ⟨k, hk⟩ | hk
  · simp [lockProgram] at hk
  · cases k with
    | zero =>
      have hk2 : LockInstr.release :: rest = [LockInstr.release] := by
        simpa [List.replicate] using hk
      injection hk2 with h1 h2
    | succ k2 => simp [List.replicate] at hk
  · cases hk

theorem midFlag_acquire (l : List LockInstr) :
    midFlag (LockInstr.acquire :: l) = false := rfl

theorem midFlag_work (l : List LockInstr) :
    midFlag (LockInstr.work :: l) = true := rfl

theorem midFlag_release (l : List LockInstr) :
    midFlag (LockInstr.release :: l) = true := rfl

theorem midFlag_nil : midFlag [] = false := rfl

theorem midCount_def (lh : Bool) (q : List Nat) (pA pB : List LockInstr)
    (tr : List LockEvent) :
    midCount ⟨lh, q, pA, pB, tr⟩
      = (if midFlag pA then 1 else 0) + (if midFlag pB then 1 else 0) := rfl

theorem traceOK_extend {st st2 : LockSched}
    (hok : TraceOK st) (hinv2 : LockInv st2)
    (heff : st2.trace = st.trace
      ∨ ∃ e, st2.trace = st.trace ++ [e]
        ∧ ∀ j, e = LockEvent.started j →
            startedCount st.trace = completedCount st.trace) :
    TraceOK st2 := by
  obtain ⟨h1, h2⟩ := hok
  rcases heff with hsame | ⟨e, happ, hstart⟩
  · refine ⟨?_, ?_⟩ <;> rw [hsame]
    · exact h1
    · exact h2
  · have hbound : startedCount st2.trace ≤ completedCount st2.trace + 1 := by
      obtain ⟨_, _, hmid, htr⟩ := hinv2
      rw [htr]
      have hle : midCount st2 ≤ 1 := by
        rw [hmid]
        split <;> omega
      omega
    refine ⟨?_, ?_⟩
    · intro p hp
      rw [happ] at hp
      rcases prefix_snoc_cases hp with hpl | hpe
      · exact h1 p hpl
      · rw [hpe, ← happ]
        exact hbound
    · intro q j hq
      rw [happ] at hq
      rcases prefix_snoc_cases hq with hql | hqe
      · exact h2 q j hql
      · obtain ⟨hqeq, heeq⟩ := snoc_inj hqe
        subst hqeq
        exact hstart j heeq.symm

theorem LockInv_mk {lh : Bool} {q : List Nat} {pA pB : List LockInstr}
    {tr : List LockEvent}
    (h1 : progCanonical pA) (h2 : progCanonical pB)
    (h3 : (if midFlag pA then 1 else 0) + (if midFlag pB then 1 else 0)
        = (if lh then 1 else 0))
    (h4 : startedCount tr = completedCount tr
        + ((if midFlag pA then 1 else 0) + (if midFlag pB then 1 else 0))) :
    LockInv ⟨lh, q, pA, pB, tr⟩ :=
  ⟨h1, h2, h3, h4⟩

theorem lockStepA_preserves {st : LockSched}
    (h : LockInv st ∧ TraceOK st) :
    LockInv (stepA st) ∧ TraceOK (stepA st) := by
  obtain ⟨⟨hA, hB, hmid, htr⟩, hok⟩ := h
  obtain ⟨lockHeld, queue, progA, progB, trace⟩ := st
  cases progA with
  | nil => exact ⟨⟨hA, hB, hmid, htr⟩, hok⟩
  | cons instr rest =>
    cases instr with
    | acquire =>
      obtain ⟨k, hk⟩ := canonical_acquire hA
      subst hk
      simp only [stepA]
      by_cases hheld : lockHeld = true
      · rw [if_pos hheld]
        split
        · exact ⟨⟨hA, hB, hmid, htr⟩, hok⟩
        · exact ⟨⟨hA, hB, hmid, htr⟩, hok⟩
      · rw [if_neg hheld]
        rw [Bool.not_eq_true] at hheld
        subst hheld
        have hmidP : (if midFlag (LockInstr.acquire ::
              (List.replicate k LockInstr.work ++ [LockInstr.release]))
              then 1 else 0)
            + (if midFlag progB then 1 else 0)
            = (if (false : Bool) then 1 else 0) := hmid
        rw [midFlag_acquire] at hmidP
        have hifB : (if midFlag progB then 1 else 0) = 0 := by
          simpa using hmidP
        have htrP : startedCount trace = completedCount trace
            + ((if midFlag (LockInstr.acquire ::
                (List.replicate k LockInstr.work ++ [LockInstr.release]))
                then 1 else 0)
              + (if midFlag progB then 1 else 0)) := htr
        rw [midFlag_acquire, hifB] at htrP
        have hse : startedCount trace = completedCount trace := by
          simpa using htrP
        by_cases hcan : queue = [] ∨ queue.head? = some 1
        · rw [if_pos hcan]
          have hinv2 : LockInv
              ⟨true, queue.drop 1,
                List.replicate k LockInstr.work ++ [LockInstr.release],
                progB, trace ++ [LockEvent.started 1]⟩ := by
            refine LockInv_mk (canonical_body k) hB ?_ ?_
            · rw [midFlag_body k, hifB]
              simp
            · rw [startedCount_append, completedCount_append,
                midFlag_body k, hifB]
              have e1 : startedCount [LockEvent.started 1] = 1 := rfl
              have e2 : completedCount [LockEvent.started 1] = 0 := rfl
              rw [e1, e2, hse]
              simp
          refine ⟨hinv2, traceOK_extend hok hinv2 ?_⟩
          exact .inr ⟨LockEvent.started 1, rfl, fun j _ => hse⟩
        · rw [if_neg hcan]
          split
          · exact ⟨⟨hA, hB, hmid, htr⟩, hok⟩
          · exact ⟨⟨hA, hB, hmid, htr⟩, hok⟩
    | work =>
      obtain ⟨k, hk⟩ := canonical_work hA
      subst hk
      have hmidP : (if midFlag (LockInstr.work ::
            (List.replicate k LockInstr.work ++ [LockInstr.release]))
            then 1 else 0)
          + (if midFlag progB then 1 else 0)
          = (if lockHeld then 1 else 0) := hmid
      rw [midFlag_work] at hmidP
      have htrP : startedCount trace = completedCount trace
          + ((if midFlag (LockInstr.work ::
              (List.replicate k LockInstr.work ++ [LockInstr.release]))
              then 1 else 0)
            + (if midFlag progB then 1 else 0)) := htr
      rw [midFlag_work] at htrP
      have hinv2 : LockInv
          ⟨lockHeld, queue,
            List.replicate k LockInstr.work ++ [LockInstr.release],
            progB, trace ++ [LockEvent.stepped 1]⟩ := by
        refine LockInv_mk (canonical_body k) hB ?_ ?_
        · rw [midFlag_body k]
          exact hmidP
        · rw [startedCount_append, completedCount_append, midFlag_body k]
          have e1 : startedCount [LockEvent.stepped 1] = 0 := rfl
          have e2 : completedCount [LockEvent.stepped 1] = 0 := rfl
          rw [e1, e2]
          omega
      simp only [stepA]
      refine ⟨hinv2, traceOK_extend hok hinv2 ?_⟩
      exact .inr ⟨LockEvent.stepped 1, rfl, fun j hj => by cases hj⟩
    | release =>
      have hrest := canonical_release hA
      subst hrest
      have hmidP : (if midFlag [LockInstr.release] then 1 else 0)
          + (if midFlag progB then 1 else 0)
          = (if lockHeld then 1 else 0) := hmid
      rw [midFlag_release] at hmidP
      have htrP : startedCount trace = completedCount trace
          + ((if midFlag [LockInstr.release] then 1 else 0)
            + (if midFlag progB then 1 else 0)) := htr
      rw [midFlag_release] at htrP
      have hheld : lockHeld = true := by
        cases lockHeld with
        | true => rfl
        | false =>
          exfalso
          simp at hmidP
      subst hheld
      have hifB : (if midFlag progB then 1 else 0) = 0 := by
        simpa using hmidP
      rw [hifB] at htrP
      have hs1 : startedCount trace = completedCount trace + 1 := by
        simpa using htrP
      have hinv2 : LockInv
          ⟨false, queue, ([] : List LockInstr), progB,
            trace ++ [LockEvent.completed 1]⟩ := by
        refine LockInv_mk (.inr (.inr rfl)) hB ?_ ?_
        · rw [midFlag_nil, hifB]
          simp
        · rw [startedCount_append, completedCount_append, midFlag_nil, hifB]
          have e1 : startedCount [LockEvent.completed 1] = 0 := rfl
          have e2 : completedCount [LockEvent.completed 1] = 1 := rfl
          rw [e1, e2]
          simp [hs1]
      simp only [stepA]
      refine ⟨hinv2, traceOK_extend hok hinv2 ?_⟩
      exact .inr ⟨LockEvent.completed 1, rfl, fun j hj => by cases hj⟩

theorem lockStepB_preserves {st : LockSched}
    (h : LockInv st ∧ TraceOK st) :
    LockInv (stepB st) ∧ TraceOK (stepB st) := by
  obtain ⟨⟨hA, hB, hmid, htr⟩, hok⟩ := h
  obtain ⟨lockHeld, queue, progA, progB, trace⟩ := st
  cases progB with
  | nil => exact ⟨⟨hA, hB, hmid, htr⟩, hok⟩
  | cons instr rest =>
    cases instr with
    | acquire =>
      obtain ⟨k, hk⟩ := canonical_acquire hB
      subst hk
      simp only [stepB]
      by_cases hheld : lockHeld = true
      · rw [if_pos hheld]
        split
        · exact ⟨⟨hA, hB, hmid, htr⟩, hok⟩
        · exact ⟨⟨hA, hB, hmid, htr⟩, hok⟩
      · rw [if_neg hheld]
        rw [Bool.not_eq_true] at hheld
        subst hheld
        have hmidP : (if midFlag progA then 1 else 0)
            + (if midFlag (LockInstr.acquire ::
              (List.replicate k LockInstr.work ++ [LockInstr.release]))
              then 1 else 0)
            = (if (false : Bool) then 1 else 0) := hmid
        rw [midFlag_acquire] at hmidP
        have hifA : (if midFlag progA then 1 else 0) = 0 := by
          simpa using hmidP
        have htrP : startedCount trace = completedCount trace
            + ((if midFlag progA then 1 else 0)
              + (if midFlag (LockInstr.acquire ::
                (List.replicate k LockInstr.work ++ [LockInstr.release]))
                then 1 else 0)) := htr
        rw [midFlag_acquire, hifA] at htrP
        have hse : startedCount trace = completedCount trace := by
          simpa using htrP
        by_cases hcan : queue = [] ∨ queue.head? = some 2
        · rw [if_pos hcan]
          have hinv2 : LockInv
              ⟨true, queue.drop 1, progA,
                List.replicate k LockInstr.work ++ [LockInstr.release],
                trace ++ [LockEvent.started 2]⟩ := by
            refine LockInv_mk hA (canonical_body k) ?_ ?_
            · rw [midFlag_body k, hifA]
              simp
            · rw [startedCount_append, completedCount_append,
                midFlag_body k, hifA]
              have e1 : startedCount [LockEvent.started 2] = 1 := rfl
              have e2 : completedCount [LockEvent.started 2] = 0 := rfl
              rw [e1, e2, hse]
              simp
          refine ⟨hinv2, traceOK_extend hok hinv2 ?_⟩
          exact .inr ⟨LockEvent.started 2, rfl, fun j _ => hse⟩
        · rw [if_neg hcan]
          split
          · exact ⟨⟨hA, hB, hmid, htr⟩, hok⟩
          · exact ⟨⟨hA, hB, hmid, htr⟩, hok⟩
    | work =>
      obtain ⟨k, hk⟩ := canonical_work hB
      subst hk
      have hmidP : (if midFlag progA then 1 else 0)
          + (if midFlag (LockInstr.work ::
            (List.replicate k LockInstr.work ++ [LockInstr.release]))
            then 1 else 0)
          = (if lockHeld then 1 else 0) := hmid
      rw [midFlag_work] at hmidP
      have htrP : startedCount trace = completedCount trace
          + ((if midFlag progA then 1 else 0)
            + (if midFlag (LockInstr.work ::
              (List.replicate k LockInstr.work ++ [LockInstr.release]))
              then 1 else 0)) := htr
      rw [midFlag_work] at htrP
      have hinv2 : LockInv
          ⟨lockHeld, queue, progA,
            List.replicate k LockInstr.work ++ [LockInstr.release],
            trace ++ [LockEvent.stepped 2]⟩ := by
        refine LockInv_mk hA (canonical_body k) ?_ ?_
        · rw [midFlag_body k]
          exact hmidP
        · rw [startedCount_append, completedCount_append, midFlag_body k]
          have e1 : startedCount [LockEvent.stepped 2] = 0 := rfl
          have e2 : completedCount [LockEvent.stepped 2] = 0 := rfl
          rw [e1, e2]
          omega
      simp only [stepB]
      refine ⟨hinv2, traceOK_extend hok hinv2 ?_⟩
      exact .inr ⟨LockEvent.stepped 2, rfl, fun j hj => by cases hj⟩
    | release =>
      have hrest := canonical_release hB
      subst hrest
      have hmidP : (if midFlag progA then 1 else 0)
          + (if midFlag [LockInstr.release] then 1 else 0)
          = (if lockHeld then 1 else 0) := hmid
      rw [midFlag_release] at hmidP
      have htrP : startedCount trace = completedCount trace
          + ((if midFlag progA then 1 else 0)
            + (if midFlag [LockInstr.release] then 1 else 0)) := htr
      rw [midFlag_release] at htrP
      have hheld : lockHeld = true := by
        cases lockHeld with
        | true => rfl
        | false =>
          exfalso
          simp at hmidP
      subst hheld
      have hifA : (if midFlag progA then 1 else 0) = 0 := by
        simpa using hmidP
      rw [hifA] at htrP
      have hs1 : startedCount trace = completedCount trace + 1 := by
        simpa using htrP
      have hinv2 : LockInv
          ⟨false, queue, progA, ([] : List LockInstr),
            trace ++ [LockEvent.completed 2]⟩ := by
        refine LockInv_mk hA (.inr (.inr rfl)) ?_ ?_
        · rw [midFlag_nil, hifA]
          simp
        · rw [startedCount_append, completedCount_append, midFlag_nil, hifA]
          have e1 : startedCount [LockEvent.completed 2] = 0 := rfl
          have e2 : completedCount [LockEvent.completed 2] = 1 := rfl
          rw [e1, e2]
          simp [hs1]
      simp only [stepB]
      refine ⟨hinv2, traceOK_extend hok hinv2 ?_⟩
      exact .inr ⟨LockEvent.completed 2, rfl, fun j hj => by cases hj⟩

theorem lockStep_preserves (st : LockSched) (i : Nat)
    (h : LockInv st ∧ TraceOK st) :
    LockInv (lockStep st i) ∧ TraceOK (lockStep st i) := by
  unfold lockStep
  split
  · exact lockStepA_preserves h
  · split
    · exact lockStepB_preserves h
    · exact h

theorem runLockSchedule_preserves :
    ∀ (schedule : List Nat) (st : LockSched), LockInv st ∧ TraceOK st →
      LockInv (runLockSchedule schedule st)
        ∧ TraceOK (runLockSchedule schedule st)
  | [], _, h => h
  | i :: rest, st, h =>
    runLockSchedule_preserves rest (lockStep st i) (lockStep_preserves st i h)

theorem twoLockCalls_ok (kA kB : Nat) :
    LockInv (twoLockCalls kA kB) ∧ TraceOK (twoLockCalls kA kB) := by
  constructor
  · refine LockInv_mk (.inl ⟨kA, rfl⟩) (.inl ⟨kB, rfl⟩) ?_ ?_
    · rw [show midFlag (lockProgram kA) = false from rfl,
        show midFlag (lockProgram kB) = false from rfl]
      simp
    · rw [show midFlag (lockProgram kA) = false from rfl,
        show midFlag (lockProgram kB) = false from rfl]
      simp [startedCount, completedCount]
  · constructor
    · intro p hp
      have hp2 : p = [] := List.prefix_nil.mp hp
      subst hp2
      simp [startedCount, completedCount]
    · intro q j hq
      have hq2 := List.prefix_nil.mp hq
      simp at hq2

/-- C4 (spec-modelled): under the spec's AwaitLock semantics, for two
overlapping `initialize`/`uninitialize` calls dispatched back-to-back
(callbacks of arbitrary lengths `kA`, `kB`, including callbacks that
fail after some steps — release runs on every exit path) and *every*
cooperative schedule interleaving them: every prefix of the event trace
has at most one callback in flight (started but not completed), and at
the moment a callback starts, no callback is in flight — so the second
callback begins only after the first has fully completed. -/
theorem c4_await_lock_mutual_exclusion (kA kB : Nat) (schedule : List Nat) :
    (∀ p, p <+: (runLockSchedule schedule (twoLockCalls kA kB)).trace →
        startedCount p ≤ completedCount p + 1)
    ∧ ∀ q j, q ++ [LockEvent.started j]
          <+: (runLockSchedule schedule (twoLockCalls kA kB)).trace →
        startedCount q = completedCount q := by
  have hrun := runLockSchedule_preserves schedule (twoLockCalls kA kB)
    (twoLockCalls_ok kA kB)
  exact ⟨hrun.2.1, hrun.2.2⟩

/-- Witness for C4 at a concrete schedule: both calls have one work
unit; the schedule runs call 1 to completion and then call 2; the prefix
up to call 1's completion has at most one callback in flight, and at
call 2's start the in-flight count is zero. -/
theorem c4_await_lock_mutual_exclusion_witness :
    startedCount
        [LockEvent.started 1, LockEvent.stepped 1, LockEvent.completed 1]
      ≤ completedCount
        [LockEvent.started 1, LockEvent.stepped 1, LockEvent.completed 1] + 1
    ∧ startedCount
        [LockEvent.started 1, LockEvent.stepped 1, LockEvent.completed 1]
      = completedCount
        [LockEvent.started 1, LockEvent.stepped 1, LockEvent.completed 1] :=
  ⟨(c4_await_lock_mutual_exclusion 1 1 [1, 1, 1, 2, 2, 2]).1
      [LockEvent.started 1, LockEvent.stepped 1, LockEvent.completed 1]
      (by decide),
    (c4_await_lock_mutual_exclusion 1 1 [1, 1, 1, 2, 2, 2]).2
      [LockEvent.started 1, LockEvent.stepped 1, LockEvent.completed 1] 2
      (by decide)⟩

/-- Witness for C7 at concrete inputs: the group "staged" is rejected by
both actions, and the valid group "Confirmed" is not rejected. -/
theorem c7_invalid_group_error_iff_witness :
    (∃ g, ADD_TRANSACTION initialWalletState "staged" txB
        = .error (.unknownGroup g))
    ∧ ¬ ∃ g, ADD_TRANSACTION initialWalletState "Confirmed" txB
        = .error (.unknownGroup g) := by
  constructor
  · exact (c7_invalid_group_error_iff initialWalletState "staged" txB
      (by decide)).1.mpr (by decide)
  · intro hc
    exact absurd ((c7_invalid_group_error_iff initialWalletState "Confirmed"
      txB (by decide)).1.mp hc) (by decide)

end SymbolWallet
